import Mathlib

/-!
Verification development for the Minecraft Bedrock subchunk block-storage
decoder (package `world`): a shallow embedding of `subchunk.go` together
with theorems settling the specified properties.

Conventions of the embedding:
* Byte streams are `List Nat`; each consumed byte is reduced modulo 256,
  mirroring the `bytes.Reader` cursor.
* Go machine integers are modelled as `Int` (for signed values) or `Nat`
  (for unsigned values), with explicit wrap-arounds modulo 2^8 / 2^32
  where the Go code truncates.
* A Go function that can return an `error` or abort the process
  (`panic`, `log.Panicf`, `log.Fatalf`) yields an `Outcome`: `.ok` for a
  normal return, `.err` for a returned error value (one constructor per
  distinct error site of the source), and `.fatal` for process
  termination (one constructor per panic / fatal-log site).
-/

/-- Sites in the source at which the process is terminated rather than an
error value returned: `panic`, `log.Panicf` and `log.Fatalf` calls. -/
inductive FatalSite where
  /-- `subChunkVoxelToIndex`: `log.Panicf` when a coordinate exceeds 15. -/
  | coordsInvalid
  /-- `stateIndices`: `log.Fatalf` when the bits-per-block-and-version
  header byte cannot be read. -/
  | indicesHeaderRead
  /-- `parseSubChunk`: `panic("block storage count is 0")`. -/
  | storageCountZero
  /-- `parseSubChunk`: `log.Panicf` when the second storage palette has
  more than 2 entries. -/
  | waterPaletteLong
  /-- `parseSubChunk`: `log.Panicf` when the second storage palette does
  not have the water id at index 1. -/
  | waterPaletteNotWater
  /-- `parseSubChunk`: `log.Panicf` on a storage count other than 0, 1, 2. -/
  | storageCountUnhandled
deriving DecidableEq

/-- The distinct returned-error sites of the source (`fmt.Errorf` calls),
including the wrapping applied when an error is propagated upward. -/
inductive GoErr where
  /-- `parseSubChunk`: "reading version byte" (version byte unreadable). -/
  | readVersionByte
  /-- `parseSubChunk`: "reading storage count" (count byte unreadable). -/
  | readStorageCount
  /-- `parseSubChunk`: "unhandled subchunk block storage version". -/
  | unhandledVersion (v : Int)
  /-- `stateIndices`: "invalid block storage version %d: 0 is expected". -/
  | invalidStorageVersion (v : Nat)
  /-- `stateIndices`: "reading word %d from raw data". -/
  | readWord (w : Nat)
  /-- `statePalette`: "reading palette size bytes". -/
  | readPaletteSize
  /-- `statePalette`: "calling nbt2json" / "unmarshaling json": a failure
  of the external tag-tree collaborator. -/
  | nbtFail
  /-- `statePalette`: "%d nbt records returned for palette size of %d". -/
  | paletteSizeMismatch (count : Nat) (declared : Int)
  /-- `parseBlockStorage`: wraps a `stateIndices` error
  ("parsing water logged indices: %s"). -/
  | wrapIndices (e : GoErr)
  /-- `parseBlockStorage`: wraps a `statePalette` error
  ("parsing nbt data: %s"). -/
  | wrapPalette (e : GoErr)
  /-- `parseSubChunk`: wraps a `parseBlockStorage` error
  ("parsing water logged: %s"). -/
  | wrapStorage (e : GoErr)
deriving DecidableEq

/-- Result of running a Go function that may return a value, return an
error, or terminate the process. -/
inductive Outcome (α : Type) where
  | ok (a : α)
  | err (e : GoErr)
  | fatal (s : FatalSite)
deriving DecidableEq

/-- Go's `>>` (arithmetic shift right) on a signed integer. -/
def goShr (i : Int) (s : Nat) : Int :=
  match i with
  | .ofNat n => .ofNat (n >>> s)
  | .negSucc n => .negSucc (n >>> s)

/-- Go's `&` (bitwise AND) on signed integers, on the two's-complement
bit representation. A negative operand `.negSucc n` has bit pattern
`NOT n`; an AND of a bit pattern with `NOT n` removes the bits of `n`,
which on the value level is subtraction of the (contained) mask `m &&& n`. -/
def goAnd : Int → Int → Int
  | .ofNat m, .ofNat n => .ofNat (m &&& n)
  | .ofNat m, .negSucc n => .ofNat (m - (m &&& n))
  | .negSucc m, .ofNat n => .ofNat (n - (m &&& n))
  | .negSucc m, .negSucc n => .negSucc (m ||| n)

/-- Reinterpret the low 32 bits of an unsigned value as Go's `int32`. -/
def toInt32 (u : Nat) : Int :=
  if u % 2 ^ 32 < 2 ^ 31 then ((u % 2 ^ 32 : Nat) : Int)
  else ((u % 2 ^ 32 : Nat) : Int) - 2 ^ 32

/-- Reinterpret the low 8 bits of a byte as Go's `int8`
(`readLittleEndian` with an `int8` destination). -/
def readInt8 (bytes : List Nat) : Option (Int × List Nat) :=
  match bytes with
  | [] => none
  | b :: rest =>
    if b % 256 < 128 then some (((b % 256 : Nat) : Int), rest)
    else some (((b % 256 : Nat) : Int) - 256, rest)

/-- Read one unsigned byte (`readLittleEndian` with a `byte` destination). -/
def readByte (bytes : List Nat) : Option (Nat × List Nat) :=
  match bytes with
  | [] => none
  | b :: rest => some (b % 256, rest)

/-- Read a little-endian 32-bit word as its unsigned value
(`readLittleEndian` with a 4-byte destination). -/
def readWord32 (bytes : List Nat) : Option (Nat × List Nat) :=
  match bytes with
  | b0 :: b1 :: b2 :: b3 :: rest =>
    some (b0 % 256 + 256 * (b1 % 256) + 65536 * (b2 % 256)
      + 16777216 * (b3 % 256), rest)
  | _ => none

/-- Read a little-endian 32-bit word as Go's signed `int32`
(`readLittleEndian` with an `int32` destination, as in `statePalette`). -/
def readInt32 (bytes : List Nat) : Option (Int × List Nat) :=
  match readWord32 bytes with
  | none => none
  | some (u, rest) => some (toInt32 u, rest)

/-- `voxelToIndex` returns the block storage index from the given sub chunk
x y and z coordinates; `log.Panicf` when a coordinate exceeds 15
(coordinates below zero pass the check unexamined). -/
def subChunkVoxelToIndex (x y z : Int) : Outcome Int :=
  if x > 15 ∨ y > 15 ∨ z > 15 then .fatal .coordsInvalid
  else .ok (y + z * 16 + x * 16 * 16)

/-- `indexToVoxel` returns the x y z offset from the sub chunk root for the
given block storage index: `x = (i >> 8) & 15`, `y = i & 15`,
`z = (i >> 4) & 15`. -/
def subChunkIndexToVoxel (i : Int) : Int × Int × Int :=
  (goAnd (goShr i 8) 15, goAnd i 15, goAnd (goShr i 4) 15)

/-- Modelled from the spec: a palette entry (Block State) as produced by
this repository's `nbt` package (whose source is not available here).
Per §3 of the spec only the name participates in the claims: two Block
States are compared by name alone when checking the waterlogging
invariant. -/
structure NBTTag where
  name : String
deriving DecidableEq, Inhabited

/-- Modelled from the spec: `nbt.NBTTag.BlockID` returns the block-state
name (the namespaced block identifier) of a palette entry. -/
def NBTTag.BlockID (t : NBTTag) : String := t.name

/-- Modelled from the spec: `waterID`, the well-known "water" block-state
identifier expected at index 1 of a waterlogging palette. -/
def waterID : String := "minecraft:water"

/-- Modelled from the spec (§6): the external tag-tree collaborator
(`nbt2json.ReadNbt2Json` followed by JSON unmarshalling), consumed by
`statePalette`. It decodes the declared number of compound entries from
the front of the stream, returning them with the unconsumed remainder,
or `none` when the tag data is malformed. -/
def ParseTagList : Type := List Nat → Int → Option (List NBTTag × List Nat)

/-- Modelled from the spec: Go's conversion of a float64 `+Inf` to `int`,
which the Go specification leaves implementation-defined. On the
reference (gc) implementation for amd64 — the platform the repository is
developed on, per its hard-coded Windows world paths — `cvttsd2si` yields
the minimum int64, a negative value. `stateIndices` hits this conversion
only when `bitsPerBlock = 0` (for `blocksPerWord`) or when
`blocksPerWord = 0`, i.e. `bitsPerBlock ≥ 33` (for `wordCount`). -/
def goIntOfPosInf : Int := -(2 ^ 63)

/-- `blocksPerWord := int(math.Floor(32.0 / float64(bitsPerBlock)))`.
For `bitsPerBlock ≥ 1` the float computation is exact and equals the
integer quotient; for `bitsPerBlock = 0` the division yields `+Inf`. -/
def blocksPerWordOf (bitsPerBlock : Nat) : Int :=
  if bitsPerBlock = 0 then goIntOfPosInf else ((32 / bitsPerBlock : Nat) : Int)

/-- `wordCount := int(math.Ceil(subChunkBlockCount / float64(blocksPerWord)))`.
For `blocksPerWord ≥ 1` the float computation is exact and equals the
integer ceiling; for `blocksPerWord = 0` the division yields `+Inf`; for
negative `blocksPerWord` (only reachable as `goIntOfPosInf`) the quotient
is a tiny negative float whose ceiling converts to 0. -/
def wordCountOf (blocksPerWord : Int) : Int :=
  if blocksPerWord = 0 then goIntOfPosInf
  else if blocksPerWord < 0 then 0
  else ((4096 + blocksPerWord.toNat - 1) / blocksPerWord.toNat : Nat)

/-- One assignment `indices[i] = int((word >> ((i % blocksPerWord) * bitsPerBlock)) & ((1 << bitsPerBlock) - 1))`
of `stateIndices`, for a word with unsigned value `u` read into the signed
`int32` variable `word`. The mask `(1 << bitsPerBlock) - 1` is computed in
`int32` arithmetic (the untyped literal 1 adopts the type of `word`), so
shift and subtraction wrap modulo 2^32. -/
def decodeWord (u pos bitsPerBlock : Nat) : Int :=
  goAnd (goShr (toInt32 u) (pos * bitsPerBlock))
    (toInt32 ((2 ^ bitsPerBlock % 2 ^ 32 + 2 ^ 32 - 1) % 2 ^ 32))

/-- The word-reading loop of `stateIndices`: reads `n` more little-endian
32-bit words (failing at word index `w` when the stream is exhausted) and
for each word extracts up to `blocksPerWord` indices, stopping once the
running index `i` reaches 4096. Returns the extracted indices in order
together with the unconsumed remainder of the stream. -/
def stateIndicesLoop (bitsPerBlock blocksPerWord : Nat) :
    Nat → Nat → Nat → List Nat → Except GoErr (List Int × List Nat)
  | 0, _, _, bytes => .ok ([], bytes)
  | n + 1, w, i, bytes =>
    match readWord32 bytes with
    | none => .error (.readWord w)
    | some (u, rest) =>
      let cnt := min blocksPerWord (4096 - i)
      let chunk := (List.range cnt).map
        (fun j => decodeWord u ((i + j) % blocksPerWord) bitsPerBlock)
      match stateIndicesLoop bitsPerBlock blocksPerWord n (w + 1) (i + cnt) rest with
      | .error e => .error e
      | .ok (tail, rem) => .ok (chunk ++ tail, rem)

/-- `stateIndices` reads a single block storage record as the integer
indices into the palette: one bits-per-block-and-version header byte
(`log.Fatalf` when unreadable), a check that the low version bit is 0,
then `wordCount` packed 32-bit words from which 4096 indices are
extracted; unfilled entries keep the zero the `make([]int, 4096)`
initialisation gave them. -/
def stateIndices (bytes : List Nat) : Outcome (List Int × List Nat) :=
  match readByte bytes with
  | none => .fatal .indicesHeaderRead
  | some (hb, rest) =>
    let bitsPerBlock := hb >>> 1
    let storageVersion := hb &&& 1
    if storageVersion ≠ 0 then .err (.invalidStorageVersion storageVersion)
    else
      let blocksPerWord := blocksPerWordOf bitsPerBlock
      let wordCount := wordCountOf blocksPerWord
      match stateIndicesLoop bitsPerBlock blocksPerWord.toNat
          wordCount.toNat 0 0 rest with
      | .error e => .err e
      | .ok (filled, rem) =>
        .ok (filled ++ List.replicate (4096 - filled.length) 0, rem)

/-- `statePalette` reads the remainder of a subchunk record and returns a
slice of tags: a little-endian `int32` declared palette size, then the
external tag-tree collaborator decodes the entries, then the entry count
is compared against the declared size. -/
def statePalette (tagList : ParseTagList) (bytes : List Nat) :
    Outcome (List NBTTag × List Nat) :=
  match readInt32 bytes with
  | none => .err .readPaletteSize
  | some (paletteSize, rest) =>
    match tagList rest paletteSize with
    | none => .err .nbtFail
    | some (tags, rest2) =>
      if (tags.length : Int) ≠ paletteSize then
        .err (.paletteSizeMismatch tags.length paletteSize)
      else .ok (tags, rest2)

/-- `parseBlockStorage` reads one storage sub-record: the index array via
`stateIndices`, then the palette via `statePalette`, wrapping either
error; the two results are returned with no further validation. -/
def parseBlockStorage (tagList : ParseTagList) (bytes : List Nat) :
    Outcome ((List Int × List NBTTag) × List Nat) :=
  match stateIndices bytes with
  | .fatal s => .fatal s
  | .err e => .err (.wrapIndices e)
  | .ok (indices, rest) =>
    match statePalette tagList rest with
    | .fatal s => .fatal s
    | .err e => .err (.wrapPalette e)
    | .ok (palette, rest2) => .ok ((indices, palette), rest2)

/-- `blockStorage`: the parsed form of one storage sub-record — an index
into the palette for each block in the sub chunk, and a palette of block
types and states. -/
structure blockStorage where
  Indices : List Int
  Palette : List NBTTag
deriving DecidableEq

/-- `subChunkData`: the parsed data for one subchunk — the primary block
layer and the (possibly empty) water-logged layer. -/
structure subChunkData where
  Blocks : blockStorage
  WaterLogged : blockStorage
deriving DecidableEq

/-- The header phase of `parseSubChunk`: read the signed version byte,
then resolve the storage count — implicitly 1 for version 1, read from
the next signed byte for version 8, an error otherwise. -/
def storageCountOf (data : List Nat) : Outcome (Int × List Nat) :=
  match readInt8 data with
  | none => .err .readVersionByte
  | some (version, r1) =>
    if version = 1 then .ok (1, r1)
    else if version = 8 then
      match readInt8 r1 with
      | none => .err .readStorageCount
      | some (storageCount, r2) => .ok (storageCount, r2)
    else .err (.unhandledVersion version)

/-- `parseSubChunk`: reads the version / storage-count header, parses the
primary block storage, then switches on the storage count — `panic` on 0,
done on 1, a second storage parse plus the water-layer palette checks
(both `log.Panicf` on violation) on 2, and `log.Panicf` on anything else. -/
def parseSubChunk (tagList : ParseTagList) (data : List Nat) :
    Outcome subChunkData :=
  match storageCountOf data with
  | .fatal s => .fatal s
  | .err e => .err e
  | .ok (storageCount, r) =>
    match parseBlockStorage tagList r with
    | .fatal s => .fatal s
    | .err e => .err (.wrapStorage e)
    | .ok (blocks, r2) =>
      if storageCount = 0 then .fatal .storageCountZero
      else if storageCount = 1 then
        .ok ⟨⟨blocks.1, blocks.2⟩, ⟨[], []⟩⟩
      else if storageCount = 2 then
        match parseBlockStorage tagList r2 with
        | .fatal s => .fatal s
        | .err e => .err (.wrapStorage e)
        | .ok (waterLogged, _) =>
          if 2 < waterLogged.2.length then .fatal .waterPaletteLong
          else if 1 < waterLogged.2.length ∧
              (waterLogged.2.getD 1 default).BlockID ≠ waterID then
            .fatal .waterPaletteNotWater
          else .ok ⟨⟨blocks.1, blocks.2⟩, ⟨waterLogged.1, waterLogged.2⟩⟩
      else .fatal .storageCountUnhandled

lemma goShr_natCast (n s : Nat) : goShr (n : Int) s = ((n / 2 ^ s : Nat) : Int) := by
  show goShr (Int.ofNat n) s = Int.ofNat (n / 2 ^ s)
  simp [goShr, Nat.shiftRight_eq_div_pow]

lemma goAnd_natCast_fifteen (n : Nat) : goAnd (n : Int) 15 = ((n % 16 : Nat) : Int) := by
  show goAnd (Int.ofNat n) (Int.ofNat 15) = Int.ofNat (n % 16)
  have h : n &&& 15 = n % 16 := by
    have := Nat.and_pow_two_sub_one_eq_mod n 4
    simpa using this
  simp [goAnd, h]

/-- Componentwise value of `subChunkIndexToVoxel` on a non-negative index. -/
lemma subChunkIndexToVoxel_natCast (n : Nat) :
    subChunkIndexToVoxel (n : Int) =
      (((n / 256 % 16 : Nat) : Int), ((n % 16 : Nat) : Int), ((n / 16 % 16 : Nat) : Int)) := by
  unfold subChunkIndexToVoxel
  rw [show (8 : Nat) = 8 from rfl]
  rw [goShr_natCast, goShr_natCast, goAnd_natCast_fifteen, goAnd_natCast_fifteen,
    goAnd_natCast_fifteen]
  norm_num

/-- C4: the voxel indexer maps are mutually inverse on the valid cube:
`subChunkIndexToVoxel` inverts `subChunkVoxelToIndex` on [0,15]^3 (where
the latter returns `y + 16*z + 256*x` without failing), and
`subChunkVoxelToIndex` inverts `subChunkIndexToVoxel` on [0,4095]. -/
theorem voxel_index_bijection :
    (∀ x y z : Int, 0 ≤ x → x ≤ 15 → 0 ≤ y → y ≤ 15 → 0 ≤ z → z ≤ 15 →
      subChunkVoxelToIndex x y z = .ok (y + z * 16 + x * 16 * 16) ∧
      subChunkIndexToVoxel (y + z * 16 + x * 16 * 16) = (x, y, z)) ∧
    (∀ i : Int, 0 ≤ i → i ≤ 4095 →
      subChunkVoxelToIndex (subChunkIndexToVoxel i).1
        (subChunkIndexToVoxel i).2.1 (subChunkIndexToVoxel i).2.2 = .ok i) := by
  constructor
  · intro x y z hx0 hx15 hy0 hy15 hz0 hz15
    obtain ⟨a, rfl⟩ := Int.eq_ofNat_of_zero_le hx0
    obtain ⟨b, rfl⟩ := Int.eq_ofNat_of_zero_le hy0
    obtain ⟨c, rfl⟩ := Int.eq_ofNat_of_zero_le hz0
    have ha : a ≤ 15 := by exact_mod_cast hx15
    have hb : b ≤ 15 := by exact_mod_cast hy15
    have hc : c ≤ 15 := by exact_mod_cast hz15
    constructor
    · unfold subChunkVoxelToIndex
      rw [if_neg]
      push_neg
      refine ⟨by exact_mod_cast ha, by exact_mod_cast hb, by exact_mod_cast hc⟩
    · have hsum : ((b : Int)) + (c : Int) * 16 + (a : Int) * 16 * 16 =
          ((b + c * 16 + a * 16 * 16 : Nat) : Int) := by push_cast; ring
      rw [hsum, subChunkIndexToVoxel_natCast]
      simp only [Prod.mk.injEq]
      refine ⟨?_, ?_, ?_⟩ <;> · rw [Int.natCast_inj]; omega
  · intro i hi0 hi
    obtain ⟨n, rfl⟩ := Int.eq_ofNat_of_zero_le hi0
    have hn : n ≤ 4095 := by exact_mod_cast hi
    rw [subChunkIndexToVoxel_natCast]
    unfold subChunkVoxelToIndex
    rw [if_neg]
    · congr 1
      push_cast
      omega
    · push_neg
      refine ⟨?_, ?_, ?_⟩ <;> · dsimp only; omega

/-- Witness for `voxel_index_bijection` at (3,5,7) and at index 1234. -/
theorem voxel_index_bijection_witness :
    (subChunkVoxelToIndex 3 5 7 = .ok (5 + 7 * 16 + 3 * 16 * 16) ∧
      subChunkIndexToVoxel (5 + 7 * 16 + 3 * 16 * 16) = (3, 5, 7)) ∧
    subChunkVoxelToIndex (subChunkIndexToVoxel 1234).1
      (subChunkIndexToVoxel 1234).2.1 (subChunkIndexToVoxel 1234).2.2 = .ok 1234 :=
  ⟨voxel_index_bijection.1 3 5 7 (by decide) (by decide) (by decide) (by decide)
      (by decide) (by decide),
    voxel_index_bijection.2 1234 (by decide) (by decide)⟩

/-- C10 (confirmed): `subChunkIndexToVoxel` is total on all non-negative
indices, returning coordinates in [0,15] with no failure, and the result
equals the result at the index reduced modulo 4096. -/
theorem indexToVoxel_total_mod (i : Int) (hi : 0 ≤ i) :
    (0 ≤ (subChunkIndexToVoxel i).1 ∧ (subChunkIndexToVoxel i).1 ≤ 15) ∧
    (0 ≤ (subChunkIndexToVoxel i).2.1 ∧ (subChunkIndexToVoxel i).2.1 ≤ 15) ∧
    (0 ≤ (subChunkIndexToVoxel i).2.2 ∧ (subChunkIndexToVoxel i).2.2 ≤ 15) ∧
    subChunkIndexToVoxel i = subChunkIndexToVoxel (i % 4096) := by
  obtain ⟨n, rfl⟩ := Int.eq_ofNat_of_zero_le hi
  have hmod : ((n : Int)) % 4096 = ((n % 4096 : Nat) : Int) := by push_cast; ring
  rw [subChunkIndexToVoxel_natCast, hmod, subChunkIndexToVoxel_natCast]
  refine ⟨⟨?_, ?_⟩, ⟨?_, ?_⟩, ⟨?_, ?_⟩, ?_⟩
  · dsimp only; omega
  · dsimp only; omega
  · dsimp only; omega
  · dsimp only; omega
  · dsimp only; omega
  · dsimp only; omega
  · simp only [Prod.mk.injEq]
    refine ⟨?_, ?_, ?_⟩ <;> · rw [Int.natCast_inj]; omega

/-- Witness for `indexToVoxel_total_mod` at index 5000 (above 4095). -/
theorem indexToVoxel_total_mod_witness :
    (0 ≤ (subChunkIndexToVoxel 5000).1 ∧ (subChunkIndexToVoxel 5000).1 ≤ 15) ∧
    (0 ≤ (subChunkIndexToVoxel 5000).2.1 ∧ (subChunkIndexToVoxel 5000).2.1 ≤ 15) ∧
    (0 ≤ (subChunkIndexToVoxel 5000).2.2 ∧ (subChunkIndexToVoxel 5000).2.2 ≤ 15) ∧
    subChunkIndexToVoxel 5000 = subChunkIndexToVoxel (5000 % 4096) :=
  indexToVoxel_total_mod 5000 (by decide)

/-- C8 counterexample: the coordinate (-1, 0, 0), outside [0,15], is not
rejected — `subChunkVoxelToIndex` returns the index -256 with no failure
of any kind. -/
theorem voxelToIndex_negative_coordinate_accepted :
    subChunkVoxelToIndex (-1) 0 0 = .ok (-256) := by decide

/-- C8 (amended): `subChunkVoxelToIndex` terminates the process (rather
than returning an error) when some coordinate exceeds 15; coordinates
below 0 pass the check unexamined, so any input with all coordinates at
most 15 — negative ones included — yields `y + 16*z + 256*x`. -/
theorem voxelToIndex_upper_bounds_only (x y z : Int) :
    ((x > 15 ∨ y > 15 ∨ z > 15) →
      subChunkVoxelToIndex x y z = .fatal .coordsInvalid) ∧
    (x ≤ 15 → y ≤ 15 → z ≤ 15 →
      subChunkVoxelToIndex x y z = .ok (y + z * 16 + x * 16 * 16)) := by
  constructor
  · intro h
    unfold subChunkVoxelToIndex
    rw [if_pos h]
  · intro hx hy hz
    unfold subChunkVoxelToIndex
    rw [if_neg]
    push_neg
    exact ⟨hx, hy, hz⟩

/-- Witness for `voxelToIndex_upper_bounds_only`: coordinate 20 triggers
the process-terminating check; coordinate -2 is accepted. -/
theorem voxelToIndex_upper_bounds_only_witness :
    subChunkVoxelToIndex 20 1 2 = .fatal .coordsInvalid ∧
    subChunkVoxelToIndex 0 (-2) 0 = .ok ((-2) + 0 * 16 + 0 * 16 * 16) :=
  ⟨(voxelToIndex_upper_bounds_only 20 1 2).1 (Or.inl (by decide)),
    (voxelToIndex_upper_bounds_only 0 (-2) 0).2 (by decide) (by decide) (by decide)⟩

/-- A concrete instance of the tag-tree collaborator used to exercise the
decoder: it consumes no bytes and yields the declared number of "air"
entries (none when the declared count is negative). -/
def airTags : ParseTagList := fun bytes n => some (List.replicate n.toNat ⟨"air"⟩, bytes)

/-- A concrete instance of the tag-tree collaborator yielding water
entries, for exercising the waterlogging invariant. -/
def waterTags : ParseTagList := fun bytes n => some (List.replicate n.toNat ⟨waterID⟩, bytes)

/-- C7 (amended): for a header whose bits-per-index value is 33 or more
(so `indicesPerWord` is 0), no `InvalidBitWidth` failure exists:
`blocksPerWord` is 0, the float word count is `+Inf`, and its (amd64)
conversion to int is negative, so the word loop is skipped and
`stateIndices` returns 4096 zero indices with no error, consuming only
the header byte. -/
theorem stateIndices_wide_bits_unchecked (hb : Nat) (rest : List Nat)
    (hflag : (hb % 256) &&& 1 = 0) (hwide : 33 ≤ (hb % 256) >>> 1) :
    stateIndices (hb :: rest) = .ok (List.replicate 4096 0, rest) := by
  have hdiv : (32 : Nat) / ((hb % 256) >>> 1) = 0 :=
    Nat.div_eq_of_lt (by omega)
  have hne : (hb % 256) >>> 1 ≠ 0 := by omega
  simp only [stateIndices, readByte, hflag, ne_eq, not_true_eq_false, if_false,
    blocksPerWordOf, hne, hdiv, wordCountOf, goIntOfPosInf]
  norm_num [stateIndicesLoop]

/-- Witness for `stateIndices_wide_bits_unchecked` at header byte 66
(bits-per-index 33, version flag 0). -/
theorem stateIndices_wide_bits_unchecked_witness :
    stateIndices (66 :: [1, 2, 3]) = .ok (List.replicate 4096 0, [1, 2, 3]) :=
  stateIndices_wide_bits_unchecked 66 [1, 2, 3] (by decide) (by decide)

/-- C7 counterexample: header byte 66 declares bits-per-index 33, outside
[1,32]; `stateIndices` does not fail with any error — it succeeds,
returning 4096 zero indices. -/
theorem stateIndices_wide_bits_no_failure :
    stateIndices [66] = .ok (List.replicate 4096 0, []) := by rfl

/-- The claim-side predicate for C1: the storage sub-record decoded
successfully even though some palette index reaches or exceeds the
palette length. -/
def hasIndexGePalette : Outcome ((List Int × List NBTTag) × List Nat) → Bool
  | .ok ((idx, pal), _) => idx.any (fun v => (pal.length : Int) ≤ v)
  | _ => false

/-- C1 counterexample input: bits-per-index 1 (header byte 2), 128 words
of 0xFFFFFFFF (every index decodes to 1), then declared palette size 1 —
so every index equals the palette length. -/
def c1Input : List Nat := 2 :: (List.replicate 512 255 ++ [1, 0, 0, 0])

/-- C1 counterexample: a record whose indices all equal the palette length
is accepted by `parseBlockStorage` — no `IndexOutOfPaletteRange` (or any
other) failure occurs, so no max-index-versus-palette validation exists. -/
theorem parseBlockStorage_accepts_out_of_range :
    hasIndexGePalette (parseBlockStorage airTags c1Input) = true := by decide

/-- C1 (amended): `parseBlockStorage` reads the index array and then the
palette from the same cursor, in that order, and returns them with no
validation whatsoever of the indices against the palette length. -/
theorem parseBlockStorage_no_validation (tagList : ParseTagList)
    (bytes r r2 : List Nat) (idx : List Int) (pal : List NBTTag)
    (h1 : stateIndices bytes = .ok (idx, r))
    (h2 : statePalette tagList r = .ok (pal, r2)) :
    parseBlockStorage tagList bytes = .ok ((idx, pal), r2) := by
  simp only [parseBlockStorage, h1, h2]

/-- Witness for `parseBlockStorage_no_validation` on a concrete record. -/
theorem parseBlockStorage_no_validation_witness :
    parseBlockStorage airTags [66, 0, 0, 0, 0] =
      .ok ((List.replicate 4096 0, []), []) :=
  parseBlockStorage_no_validation airTags [66, 0, 0, 0, 0] [0, 0, 0, 0] []
    (List.replicate 4096 0) [] (by rfl) (by rfl)

/-- C2 counterexample: a version-8 record with storage count 0 and a
well-formed primary layer makes `parseSubChunk` terminate the process
(`panic("block storage count is 0")`) instead of returning an error. -/
theorem parseSubChunk_zero_count_terminates :
    parseSubChunk airTags [8, 0, 66, 0, 0, 0, 0] = .fatal .storageCountZero := by rfl

/-- C2 (amended): after a successful header read and primary-layer parse,
`parseSubChunk` returns the record when the storage count is 1, but
terminates the process when the storage count is 0 or outside {1,2}
(and, per `stateIndices`, also when a bits-per-block header byte is
missing); only header and layer decode failures surface as returned
errors. -/
theorem parseSubChunk_count_termination (tagList : ParseTagList)
    (data r r2 : List Nat) (sc : Int) (blocks : List Int × List NBTTag)
    (h1 : storageCountOf data = .ok (sc, r))
    (h2 : parseBlockStorage tagList r = .ok (blocks, r2)) :
    (sc = 0 → parseSubChunk tagList data = .fatal .storageCountZero) ∧
    (sc = 1 → parseSubChunk tagList data = .ok ⟨⟨blocks.1, blocks.2⟩, ⟨[], []⟩⟩) ∧
    (sc ≠ 0 → sc ≠ 1 → sc ≠ 2 →
      parseSubChunk tagList data = .fatal .storageCountUnhandled) := by
  refine ⟨?_, ?_, ?_⟩
  · intro h0
    subst h0
    simp only [parseSubChunk, h1, h2]
    norm_num
  · intro h1'
    subst h1'
    simp only [parseSubChunk, h1, h2]
    norm_num
  · intro h0 h1' h2'
    simp only [parseSubChunk, h1, h2, if_neg h0, if_neg h1', if_neg h2']

/-- Witness for `parseSubChunk_count_termination` at storage counts 0, 1
and 7. -/
theorem parseSubChunk_count_termination_witness :
    (parseSubChunk airTags [8, 0, 68, 0, 0, 0, 0] = .fatal .storageCountZero) ∧
    (parseSubChunk airTags [8, 1, 68, 0, 0, 0, 0] =
      .ok ⟨⟨List.replicate 4096 0, []⟩, ⟨[], []⟩⟩) ∧
    (parseSubChunk airTags [8, 7, 68, 0, 0, 0, 0] = .fatal .storageCountUnhandled) :=
  ⟨(parseSubChunk_count_termination airTags [8, 0, 68, 0, 0, 0, 0] [68, 0, 0, 0, 0]
      [] 0 (List.replicate 4096 0, []) (by rfl) (by rfl)).1 rfl,
    (parseSubChunk_count_termination airTags [8, 1, 68, 0, 0, 0, 0] [68, 0, 0, 0, 0]
      [] 1 (List.replicate 4096 0, []) (by rfl) (by rfl)).2.1 rfl,
    (parseSubChunk_count_termination airTags [8, 7, 68, 0, 0, 0, 0] [68, 0, 0, 0, 0]
      [] 7 (List.replicate 4096 0, []) (by rfl) (by rfl)).2.2
      (by decide) (by decide) (by decide)⟩

/-- C5 counterexample: a two-storage record whose second palette has 3
entries makes `parseSubChunk` terminate the process (`log.Panicf`), not
return an `UnexpectedWaterLayerShape`-style error value. -/
theorem parseSubChunk_long_water_palette_terminates :
    parseSubChunk airTags [8, 2, 66, 0, 0, 0, 0, 66, 3, 0, 0, 0] =
      .fatal .waterPaletteLong := by rfl

/-- C5 (amended): on a two-storage record whose layers both decode, the
water-layer shape conditions are exactly as claimed — palette length at
most 2, and the entry at index 1 named the water identifier when the
length is exactly 2, index 0 unconstrained — but a violation terminates
the process (`log.Panicf`) instead of returning an error; inputs
satisfying both conditions are accepted. -/
theorem parseSubChunk_water_layer_shape (tagList : ParseTagList)
    (data r r2 r3 : List Nat) (blocks wl : List Int × List NBTTag)
    (h1 : storageCountOf data = .ok (2, r))
    (h2 : parseBlockStorage tagList r = .ok (blocks, r2))
    (h3 : parseBlockStorage tagList r2 = .ok (wl, r3)) :
    (2 < wl.2.length → parseSubChunk tagList data = .fatal .waterPaletteLong) ∧
    (wl.2.length = 2 → (wl.2.getD 1 default).BlockID ≠ waterID →
      parseSubChunk tagList data = .fatal .waterPaletteNotWater) ∧
    (wl.2.length ≤ 2 → (1 < wl.2.length → (wl.2.getD 1 default).BlockID = waterID) →
      parseSubChunk tagList data = .ok ⟨⟨blocks.1, blocks.2⟩, ⟨wl.1, wl.2⟩⟩) := by
  have hbase : parseSubChunk tagList data =
      (if 2 < wl.2.length then Outcome.fatal FatalSite.waterPaletteLong
        else if 1 < wl.2.length ∧ (wl.2.getD 1 default).BlockID ≠ waterID then
          Outcome.fatal FatalSite.waterPaletteNotWater
        else Outcome.ok ⟨⟨blocks.1, blocks.2⟩, ⟨wl.1, wl.2⟩⟩) := by
    simp only [parseSubChunk, h1, h2, h3]
    norm_num
  refine ⟨?_, ?_, ?_⟩
  · intro hlong
    rw [hbase, if_pos hlong]
  · intro hlen hnw
    rw [hbase, if_neg (by omega), if_pos ⟨by omega, hnw⟩]
  · intro hlen hw
    rw [hbase, if_neg (by omega), if_neg]
    rintro ⟨hgt, hne⟩
    exact hne (hw hgt)

/-- Witness for `parseSubChunk_water_layer_shape`: a second layer with
palette `[water, water]` (entry 1 named water) is accepted; a second
layer with palette `[air, air]` terminates the process. -/
theorem parseSubChunk_water_layer_shape_witness :
    (parseSubChunk waterTags [8, 2, 66, 0, 0, 0, 0, 66, 2, 0, 0, 0] =
      .ok ⟨⟨List.replicate 4096 0, []⟩,
        ⟨List.replicate 4096 0, List.replicate 2 ⟨waterID⟩⟩⟩) ∧
    (parseSubChunk airTags [8, 2, 66, 0, 0, 0, 0, 66, 2, 0, 0, 0] =
      .fatal .waterPaletteNotWater) :=
  ⟨(parseSubChunk_water_layer_shape waterTags _ [66, 0, 0, 0, 0, 66, 2, 0, 0, 0]
      [66, 2, 0, 0, 0] [] (List.replicate 4096 0, [])
      (List.replicate 4096 0, List.replicate 2 ⟨waterID⟩)
      (by rfl) (by rfl) (by rfl)).2.2 (by decide) (fun _ => by decide),
    (parseSubChunk_water_layer_shape airTags _ [66, 0, 0, 0, 0, 66, 2, 0, 0, 0]
      [66, 2, 0, 0, 0] [] (List.replicate 4096 0, [])
      (List.replicate 4096 0, List.replicate 2 ⟨"air"⟩)
      (by rfl) (by rfl) (by rfl)).2.1 (by decide) (by decide)⟩

/-- C6 counterexample: a declared palette size of -1 is not rejected by a
dedicated negative-size check — `statePalette` hands -1 to the tag-tree
collaborator and fails afterwards at the size-comparison site (the
"%d nbt records returned for palette size of %d" error), not with any
`NegativePaletteSize`-style failure. -/
theorem statePalette_negative_size_reaches_comparison :
    statePalette airTags [255, 255, 255, 255] =
      .err (.paletteSizeMismatch 0 (-1)) := by rfl

/-- C6 (amended): `statePalette` has no negative-size check: a declared
size N is passed to the tag-tree collaborator as-is, and the only size
validation is the final count comparison — a count differing from N
(which is automatic for N < 0, counts being non-negative) fails with the
size-mismatch error, and a count equal to N is accepted. -/
theorem statePalette_size_comparison_only (tagList : ParseTagList)
    (bytes r r2 : List Nat) (n : Int) (tags : List NBTTag)
    (h1 : readInt32 bytes = some (n, r)) (h2 : tagList r n = some (tags, r2)) :
    ((tags.length : Int) ≠ n →
      statePalette tagList bytes = .err (.paletteSizeMismatch tags.length n)) ∧
    (n < 0 →
      statePalette tagList bytes = .err (.paletteSizeMismatch tags.length n)) ∧
    ((tags.length : Int) = n → statePalette tagList bytes = .ok (tags, r2)) := by
  have hbase : statePalette tagList bytes =
      (if (tags.length : Int) ≠ n then
        Outcome.err (.paletteSizeMismatch tags.length n)
      else Outcome.ok (tags, r2)) := by
    simp only [statePalette, h1, h2]
  refine ⟨?_, ?_, ?_⟩
  · intro hne
    rw [hbase, if_pos hne]
  · intro hneg
    rw [hbase, if_pos (by omega)]
  · intro heq
    rw [hbase, if_neg (by omega)]

/-- Witness for `statePalette_size_comparison_only`: declared size -2
fails at the size comparison; declared size 2 with two decoded entries is
accepted. -/
theorem statePalette_size_comparison_only_witness :
    (statePalette airTags [254, 255, 255, 255] =
      .err (.paletteSizeMismatch 0 (-2))) ∧
    (statePalette airTags [2, 0, 0, 0, 9] =
      .ok (List.replicate 2 ⟨"air"⟩, [9])) :=
  ⟨(statePalette_size_comparison_only airTags [254, 255, 255, 255] [] []
      (-2) [] (by rfl) (by rfl)).2.1 (by decide),
    (statePalette_size_comparison_only airTags [2, 0, 0, 0, 9] [9] [9]
      2 (List.replicate 2 ⟨"air"⟩) (by rfl) (by rfl)).2.2 (by decide)⟩

/-- C9 (confirmed): for a version-8 record whose storage-count byte is
neither 1 nor 2, the primary block storage is parsed before the count is
examined: a failing primary parse returns the layer's (wrapped) error and
the storage-count violation is never reached, while a successful primary
parse is followed by the storage-count failure (a process-terminating
one: `panic` for 0, `log.Panicf` otherwise). -/
theorem parseSubChunk_primary_parsed_first (tagList : ParseTagList)
    (data r1 r2 : List Nat) (c : Int)
    (hv : readInt8 data = some (8, r1)) (hc : readInt8 r1 = some (c, r2))
    (hc1 : c ≠ 1) (hc2 : c ≠ 2) :
    (∀ e, parseBlockStorage tagList r2 = .err e →
      parseSubChunk tagList data = .err (.wrapStorage e)) ∧
    (∀ blocks r3, parseBlockStorage tagList r2 = .ok (blocks, r3) →
      parseSubChunk tagList data =
        .fatal (if c = 0 then .storageCountZero else .storageCountUnhandled)) := by
  have hsc : storageCountOf data = .ok (c, r2) := by
    simp only [storageCountOf, hv, hc]
    norm_num
  constructor
  · intro e he
    simp only [parseSubChunk, hsc, he]
  · intro blocks r3 hb
    simp only [parseSubChunk, hsc, hb, if_neg hc1, if_neg hc2]
    by_cases h0 : c = 0
    · rw [if_pos h0, if_pos h0]
    · rw [if_neg h0, if_neg h0]

/-- Witness for `parseSubChunk_primary_parsed_first` at storage count 5:
a corrupt primary layer surfaces its own returned error; a well-formed
primary layer is followed by the storage-count process termination. -/
theorem parseSubChunk_primary_parsed_first_witness :
    (parseSubChunk airTags [8, 5, 3] =
      .err (.wrapStorage (.wrapIndices (.invalidStorageVersion 1)))) ∧
    (parseSubChunk airTags [8, 5, 66, 0, 0, 0, 0] =
      .fatal .storageCountUnhandled) := by
  constructor
  · exact (parseSubChunk_primary_parsed_first airTags [8, 5, 3] [5, 3] [3] 5
      (by rfl) (by rfl) (by decide) (by decide)).1
      (.wrapIndices (.invalidStorageVersion 1)) (by rfl)
  · have h := (parseSubChunk_primary_parsed_first airTags [8, 5, 66, 0, 0, 0, 0]
      [5, 66, 0, 0, 0, 0] [66, 0, 0, 0, 0] 5
      (by rfl) (by rfl) (by decide) (by decide)).2
      (List.replicate 4096 0, []) [] (by rfl)
    simpa using h

lemma toInt32_lt (u : Nat) (h31 : u < 2 ^ 31) : toInt32 u = Int.ofNat u := by
  unfold toInt32
  rw [Nat.mod_eq_of_lt (by omega), if_pos h31]
  rfl

lemma toInt32_ge (u : Nat) (h31 : 2 ^ 31 ≤ u) (h32 : u < 2 ^ 32) :
    toInt32 u = Int.negSucc (2 ^ 32 - 1 - u) := by
  unfold toInt32
  rw [Nat.mod_eq_of_lt h32, if_neg (by omega), Int.negSucc_eq]
  push_cast [show u ≤ 2 ^ 32 - 1 by omega]
  omega

/-- Complement-division: dividing the `P*Q`-bit-range complement of `m`
by `P` yields the `Q`-range complement of `m / P`. -/
lemma compl_div (P Q m : Nat) (hP : 0 < P) (hm : m < P * Q) :
    (P * Q - 1 - m) / P = Q - 1 - m / P := by
  have hdm := Nat.div_add_mod m P
  have hr : m % P < P := Nat.mod_lt _ hP
  have ha : m / P < Q := by
    rw [Nat.div_lt_iff_lt_mul hP, Nat.mul_comm Q P]
    exact hm
  have e1 : P * Q = P * (Q - 1 - m / P) + P + P * (m / P) := by
    have hQ : Q = (Q - 1 - m / P) + 1 + m / P := by omega
    calc P * Q = P * ((Q - 1 - m / P) + 1 + m / P) := by rw [← hQ]
      _ = P * (Q - 1 - m / P) + P + P * (m / P) := by ring
  have key : P * Q - 1 - m = P * (Q - 1 - m / P) + (P - 1 - m % P) := by omega
  have hz : (P - 1 - m % P) / P = 0 := Nat.div_eq_of_lt (by omega)
  rw [key, Nat.mul_add_div hP, hz, Nat.add_zero]

/-- Complement-modulus: reducing the `B*E`-range complement of `q`
modulo `B` yields the `B`-range complement of `q % B`. -/
lemma compl_mod (B E q : Nat) (hB : 0 < B) (hq : q < B * E) :
    (B * E - 1 - q) % B = B - 1 - q % B := by
  have hdm := Nat.div_add_mod q B
  have hr : q % B < B := Nat.mod_lt _ hB
  have ha : q / B < E := by
    rw [Nat.div_lt_iff_lt_mul hB, Nat.mul_comm E B]
    exact hq
  have e1 : B * E = B * (E - 1 - q / B) + B + B * (q / B) := by
    have hE : E = (E - 1 - q / B) + 1 + q / B := by omega
    calc B * E = B * ((E - 1 - q / B) + 1 + q / B) := by rw [← hE]
      _ = B * (E - 1 - q / B) + B + B * (q / B) := by ring
  have key : B * E - 1 - q = B * (E - 1 - q / B) + (B - 1 - q % B) := by omega
  rw [key, Nat.mul_add_mod, Nat.mod_eq_of_lt (by omega)]

lemma decodeWord_mask_small (b : Nat) (hb1 : 1 ≤ b) (hb31 : b ≤ 31) :
    toInt32 ((2 ^ b % 2 ^ 32 + 2 ^ 32 - 1) % 2 ^ 32) = Int.ofNat (2 ^ b - 1) := by
  have h1 : (2:Nat) ^ b ≤ 2 ^ 31 := Nat.pow_le_pow_right (by norm_num) hb31
  have i1 : (2:Nat) ^ b % 2 ^ 32 = 2 ^ b := Nat.mod_eq_of_lt (by norm_num; omega)
  rw [i1]
  have i2 : (2:Nat) ^ b + 2 ^ 32 - 1 = (2 ^ b - 1) + 2 ^ 32 := by
    have : (1:Nat) ≤ 2 ^ b := Nat.one_le_two_pow
    omega
  rw [i2, Nat.add_mod_right, Nat.mod_eq_of_lt (by norm_num; omega)]
  exact toInt32_lt _ (by norm_num; omega)

lemma decodeWord_small (b k u : Nat) (hb1 : 1 ≤ b) (hb31 : b ≤ 31)
    (hkb : k * b + b ≤ 32) (hu : u < 2 ^ 32) :
    decodeWord u k b = Int.ofNat ((u >>> (k * b)) % 2 ^ b) := by
  unfold decodeWord
  rw [decodeWord_mask_small b hb1 hb31]
  have hb_pos : (0:Nat) < 2 ^ b := Nat.pos_pow_of_pos b (by norm_num)
  by_cases h31 : u < 2 ^ 31
  · rw [toInt32_lt u h31]
    have g1 : goShr (Int.ofNat u) (k * b) = Int.ofNat (u >>> (k * b)) := rfl
    have g2 : goAnd (Int.ofNat (u >>> (k * b))) (Int.ofNat (2 ^ b - 1)) =
        Int.ofNat ((u >>> (k * b)) &&& (2 ^ b - 1)) := rfl
    rw [g1, g2]
    congr 1
    exact Nat.and_pow_two_sub_one_eq_mod (u >>> (k * b)) b
  · rw [toInt32_ge u (by omega) hu]
    have g1 : goShr (Int.negSucc (2 ^ 32 - 1 - u)) (k * b) =
        Int.negSucc ((2 ^ 32 - 1 - u) >>> (k * b)) := rfl
    have g2 : goAnd (Int.negSucc ((2 ^ 32 - 1 - u) >>> (k * b)))
        (Int.ofNat (2 ^ b - 1)) =
        Int.ofNat ((2 ^ b - 1) -
          (((2 ^ 32 - 1 - u) >>> (k * b)) &&& (2 ^ b - 1))) := rfl
    rw [g1, g2]
    congr 1
    rw [Nat.and_pow_two_sub_one_eq_mod, Nat.shiftRight_eq_div_pow,
      Nat.shiftRight_eq_div_pow]
    -- complement arithmetic: write 2^32 as 2^(k*b) * (2^b * 2^(32 - k*b - b))
    have hsplit : (2:Nat) ^ 32 = 2 ^ (k * b) * 2 ^ (32 - k * b) := by
      rw [← pow_add]
      congr 1
      omega
    have hsplit2 : (2:Nat) ^ (32 - k * b) = 2 ^ b * 2 ^ (32 - k * b - b) := by
      rw [← pow_add]
      congr 1
      omega
    have hm32 : 2 ^ 32 - 1 - u < 2 ^ (k * b) * 2 ^ (32 - k * b) := by
      rw [← hsplit]
      have : (1:Nat) ≤ 2 ^ 32 := Nat.one_le_two_pow
      omega
    have hs_pos : (0:Nat) < 2 ^ (k * b) := Nat.pos_pow_of_pos _ (by norm_num)
    have hd : (2 ^ 32 - 1 - u) / 2 ^ (k * b) =
        2 ^ (32 - k * b) - 1 - u / 2 ^ (k * b) := by
      have h1 : 2 ^ (k * b) * 2 ^ (32 - k * b) - 1 - u = 2 ^ 32 - 1 - u := by
        rw [← hsplit]
      rw [← h1, compl_div _ _ u hs_pos (by rw [← hsplit]; exact hu)]
    rw [hd, hsplit2]
    have hq : u / 2 ^ (k * b) < 2 ^ b * 2 ^ (32 - k * b - b) := by
      rw [← hsplit2, Nat.div_lt_iff_lt_mul hs_pos, Nat.mul_comm, ← hsplit]
      exact hu
    rw [compl_mod _ _ _ hb_pos hq]
    -- both sides now read 2^b - 1 - (u / 2^(k*b)) % 2^b
    have hcd : (2 ^ 32 - 1 - u) / 2 ^ (k * b) % (2 ^ b) =
        2 ^ b - 1 - u / 2 ^ (k * b) % 2 ^ b := by
      rw [hd, hsplit2, compl_mod _ _ _ hb_pos hq]
    omega

lemma decodeWord_32 (u : Nat) (hu : u < 2 ^ 32) : decodeWord u 0 32 = toInt32 u := by
  unfold decodeWord
  have hmask : toInt32 ((2 ^ 32 % 2 ^ 32 + 2 ^ 32 - 1) % 2 ^ 32) = Int.negSucc 0 := by
    norm_num [toInt32]
    decide
  rw [hmask]
  by_cases h31 : u < 2 ^ 31
  · rw [toInt32_lt u h31]
    show Int.ofNat (u >>> 0 - (u >>> 0 &&& 0)) = Int.ofNat u
    simp [Nat.shiftRight_zero, Nat.and_zero]
  · rw [toInt32_ge u (by omega) hu]
    show Int.negSucc ((2 ^ 32 - 1 - u) >>> 0 ||| 0) = Int.negSucc (2 ^ 32 - 1 - u)
    simp [Nat.shiftRight_zero, Nat.or_zero]

/-- Little-endian byte encoding of one 32-bit word, for stating what the
word loop reads. -/
def encodeWord32 (u : Nat) : List Nat :=
  [u % 256, u / 256 % 256, u / 65536 % 256, u / 16777216 % 256]

/-- Concatenated little-endian encoding of a list of 32-bit words. -/
def encodeWords (ws : List Nat) : List Nat := (ws.map encodeWord32).join

lemma readWord32_encode (u : Nat) (hu : u < 2 ^ 32) (rest : List Nat) :
    readWord32 (encodeWord32 u ++ rest) = some (u, rest) := by
  show readWord32 (u % 256 :: u / 256 % 256 :: u / 65536 % 256 ::
    u / 16777216 % 256 :: rest) = some (u, rest)
  unfold readWord32
  norm_num
  omega

/-- The reference unpacking of a word list, mirroring the per-word chunk
extraction of `stateIndicesLoop` without the byte reading. -/
def unpackWords (b bpw : Nat) : List Nat → Nat → List Int
  | [], _ => []
  | u :: ws, i =>
    ((List.range (min bpw (4096 - i))).map
      (fun j => decodeWord u ((i + j) % bpw) b))
      ++ unpackWords b bpw ws (i + min bpw (4096 - i))

lemma stateIndicesLoop_encode (b bpw : Nat) :
    ∀ (ws : List Nat) (w i : Nat) (rest : List Nat),
    (∀ u ∈ ws, u < 2 ^ 32) →
    stateIndicesLoop b bpw ws.length w i (encodeWords ws ++ rest) =
      .ok (unpackWords b bpw ws i, rest)
  | [], w, i, rest, _ => by
    simp [encodeWords, unpackWords, stateIndicesLoop]
  | u :: ws, w, i, rest, hw => by
    have hu : u < 2 ^ 32 := hw u (by simp)
    have hws : ∀ v ∈ ws, v < 2 ^ 32 := fun v hv => hw v (by simp [hv])
    have henc : encodeWords (u :: ws) ++ rest =
        encodeWord32 u ++ (encodeWords ws ++ rest) := by
      simp [encodeWords]
    rw [henc]
    show stateIndicesLoop b bpw (ws.length + 1) w i _ = _
    unfold stateIndicesLoop
    rw [readWord32_encode u hu]
    dsimp only
    rw [stateIndicesLoop_encode b bpw ws (w + 1) (i + min bpw (4096 - i)) rest hws]
    show Except.ok _ = Except.ok (unpackWords b bpw (u :: ws) i, rest)
    rw [show unpackWords b bpw (u :: ws) i =
      ((List.range (min bpw (4096 - i))).map
        (fun j => decodeWord u ((i + j) % bpw) b))
        ++ unpackWords b bpw ws (i + min bpw (4096 - i)) from rfl]

lemma unpackWords_length (b bpw : Nat) :
    ∀ (ws : List Nat) (i : Nat),
    (unpackWords b bpw ws i).length = min (ws.length * bpw) (4096 - i)
  | [], i => by simp [unpackWords]
  | u :: ws, i => by
    show (_ ++ unpackWords b bpw ws (i + min bpw (4096 - i))).length = _
    rw [List.length_append, List.length_map, List.length_range,
      unpackWords_length b bpw ws (i + min bpw (4096 - i))]
    rw [List.length_cons, Nat.succ_mul]
    omega

lemma unpackWords_get (b bpw : Nat) (hbpw : 0 < bpw) :
    ∀ (ws : List Nat) (i t : Nat), i % bpw = 0 →
    t < (unpackWords b bpw ws i).length →
    (unpackWords b bpw ws i)[t]? =
      some (decodeWord (ws.getD (t / bpw) 0) (t % bpw) b)
  | [], i, t, _, ht => by simp [unpackWords] at ht
  | u :: ws, i, t, hi, ht => by
    have hlen_all := unpackWords_length b bpw (u :: ws) i
    have hlen_tail := unpackWords_length b bpw ws (i + min bpw (4096 - i))
    rw [List.length_cons, Nat.succ_mul] at hlen_all
    have ht' : t < min (ws.length * bpw + bpw) (4096 - i) := hlen_all ▸ ht
    show (((List.range (min bpw (4096 - i))).map
      (fun j => decodeWord u ((i + j) % bpw) b))
      ++ unpackWords b bpw ws (i + min bpw (4096 - i)))[t]? = _
    rw [List.getElem?_append]
    simp only [List.length_map, List.length_range]
    by_cases hcase : t < min bpw (4096 - i)
    · rw [if_pos hcase, List.getElem?_map, List.getElem?_range hcase]
      have htb : t < bpw := by omega
      have e1 : (i + t) % bpw = t := by
        rw [Nat.add_mod, hi, Nat.zero_add, Nat.mod_eq_of_lt htb,
          Nat.mod_eq_of_lt htb]
      have e2 : t / bpw = 0 := Nat.div_eq_of_lt htb
      have e3 : t % bpw = t := Nat.mod_eq_of_lt htb
      rw [e2, e3]
      show some (decodeWord u ((i + t) % bpw) b) = some (decodeWord u t b)
      rw [e1]
    · rw [if_neg hcase]
      have hcnt : min bpw (4096 - i) = bpw := by omega
      rw [hcnt] at hlen_tail ⊢
      have halign : (i + bpw) % bpw = 0 := by
        rw [Nat.add_mod_right, hi]
      have hbound : t - bpw < (unpackWords b bpw ws (i + bpw)).length := by
        rw [hlen_tail]
        omega
      rw [unpackWords_get b bpw hbpw ws (i + bpw) (t - bpw) halign hbound]
      have e1 : t / bpw = (t - bpw) / bpw + 1 := by
        conv_lhs => rw [show t = (t - bpw) + bpw from by omega]
        rw [Nat.add_div_right _ hbpw]
      have e2 : t % bpw = (t - bpw) % bpw := by
        conv_lhs => rw [show t = (t - bpw) + bpw from by omega]
        rw [Nat.add_mod_right]
      rw [e1, e2]
      rfl

lemma le_ceil_mul (d a : Nat) (hd : 0 < d) : a ≤ ((a + d - 1) / d) * d := by
  have hdm := Nat.div_add_mod (a + d - 1) d
  have hr : (a + d - 1) % d < d := Nat.mod_lt _ hd
  rw [Nat.mul_comm]
  omega

lemma stateIndices_encode_spec (b : Nat) (hb1 : 1 ≤ b) (hb32 : b ≤ 32)
    (ws : List Nat) (hw : ∀ u ∈ ws, u < 2 ^ 32)
    (hlen : ws.length = (4096 + 32 / b - 1) / (32 / b)) (rest : List Nat) :
    stateIndices (2 * b :: (encodeWords ws ++ rest)) =
      .ok (unpackWords b (32 / b) ws 0, rest) := by
  have hbpw : 1 ≤ 32 / b := by
    rw [Nat.le_div_iff_mul_le (by omega)]
    omega
  have hmod : 2 * b % 256 = 2 * b := Nat.mod_eq_of_lt (by omega)
  have hshift : (2 * b) >>> 1 = b := by
    rw [Nat.shiftRight_eq_div_pow, pow_one]
    omega
  have hflag : (2 * b) &&& 1 = 0 := by
    rw [Nat.and_one_is_mod, Nat.mul_mod_right]
  unfold stateIndices readByte
  dsimp only
  rw [hmod, hshift, hflag]
  norm_num
  have hbne : b ≠ 0 := by omega
  rw [blocksPerWordOf, if_neg hbne]
  have h0 : ((32 / b : Nat) : Int) ≠ 0 := by
    exact_mod_cast show (32 / b : Nat) ≠ 0 by omega
  have hneg : ¬ ((32 / b : Nat) : Int) < 0 := not_lt.2 (Int.natCast_nonneg _)
  rw [wordCountOf, if_neg h0, if_neg hneg, Int.toNat_natCast]
  rw [Int.toNat_natCast, ← hlen,
    stateIndicesLoop_encode b (32 / b) ws 0 0 rest hw]
  have hfl : (unpackWords b (32 / b) ws 0).length = 4096 := by
    rw [unpackWords_length]
    have := le_ceil_mul (32 / b) 4096 (by omega)
    rw [hlen]
    omega
  dsimp only
  rw [hfl]
  simp

lemma getD_lt_two_pow_32 (ws : List Nat) (hw : ∀ u ∈ ws, u < 2 ^ 32) (j : Nat) :
    ws.getD j 0 < 2 ^ 32 := by
  by_cases hj : j < ws.length
  · rw [List.getD_eq_getElem ws 0 hj]
    exact hw _ (List.getElem_mem hj)
  · rw [List.getD_eq_default ws 0 (by omega)]
    norm_num

/-- C3 (amended): for bits-per-index b in [1,32], flag bit 0, and exactly
the required count of little-endian words, `stateIndices` succeeds with
exactly 4096 indices and consumes nothing further; for b ≤ 31 the t-th
index is bits [k*b, k*b+b) of word t/(32/b) counted from the least
significant bit (k = t mod (32/b)), masked with 2^b - 1, hence in
[0, 2^b) — indices never straddle a word boundary and leftover high bits
are discarded; for b = 32, however, each index is the word reinterpreted
as a SIGNED 32-bit value, so a word with the high bit set yields a
negative index outside [0, 2^32). -/
theorem stateIndices_bit_unpacking (b : Nat) (hb1 : 1 ≤ b) (hb32 : b ≤ 32)
    (ws : List Nat) (hw : ∀ u ∈ ws, u < 2 ^ 32)
    (hlen : ws.length = (4096 + 32 / b - 1) / (32 / b)) (rest : List Nat) :
    ∃ idx : List Int,
      stateIndices (2 * b :: (encodeWords ws ++ rest)) = .ok (idx, rest) ∧
      idx.length = 4096 ∧
      (b ≤ 31 → ∀ t < 4096,
        idx[t]? = some (Int.ofNat
          ((ws.getD (t / (32 / b)) 0 >>> (t % (32 / b) * b)) % 2 ^ b))) ∧
      (b ≤ 31 → ∀ t < 4096, ∀ v, idx[t]? = some v →
        0 ≤ v ∧ v < ((2 ^ b : Nat) : Int)) ∧
      (b = 32 → ∀ t < 4096, idx[t]? = some (toInt32 (ws.getD t 0))) := by
  have hbpw : 1 ≤ 32 / b := by
    rw [Nat.le_div_iff_mul_le (by omega)]
    omega
  have hlen4096 : (unpackWords b (32 / b) ws 0).length = 4096 := by
    rw [unpackWords_length]
    have := le_ceil_mul (32 / b) 4096 (by omega)
    rw [hlen]
    omega
  have hget : ∀ t < 4096, (unpackWords b (32 / b) ws 0)[t]? =
      some (decodeWord (ws.getD (t / (32 / b)) 0) (t % (32 / b)) b) := by
    intro t ht
    exact unpackWords_get b (32 / b) (by omega) ws 0 t (Nat.zero_mod _)
      (by omega)
  refine ⟨unpackWords b (32 / b) ws 0,
    stateIndices_encode_spec b hb1 hb32 ws hw hlen rest, hlen4096, ?_, ?_, ?_⟩
  · intro hb31 t ht
    rw [hget t ht]
    congr 1
    have hk : t % (32 / b) < 32 / b := Nat.mod_lt _ (by omega)
    have hkb : t % (32 / b) * b + b ≤ 32 := by
      have h1 : (t % (32 / b) + 1) * b ≤ (32 / b) * b :=
        Nat.mul_le_mul_right b hk
      have h2 : (32 / b) * b ≤ 32 := Nat.div_mul_le_self 32 b
      rw [Nat.succ_mul] at h1
      omega
    exact decodeWord_small b (t % (32 / b)) _ hb1 hb31 hkb
      (getD_lt_two_pow_32 ws hw _)
  · intro hb31 t ht v hv
    have hk : t % (32 / b) < 32 / b := Nat.mod_lt _ (by omega)
    have hkb : t % (32 / b) * b + b ≤ 32 := by
      have h1 : (t % (32 / b) + 1) * b ≤ (32 / b) * b :=
        Nat.mul_le_mul_right b hk
      have h2 : (32 / b) * b ≤ 32 := Nat.div_mul_le_self 32 b
      rw [Nat.succ_mul] at h1
      omega
    rw [hget t ht, decodeWord_small b (t % (32 / b)) _ hb1 hb31 hkb
      (getD_lt_two_pow_32 ws hw _)] at hv
    have hv' : v = Int.ofNat
        ((ws.getD (t / (32 / b)) 0 >>> (t % (32 / b) * b)) % 2 ^ b) := by
      exact (Option.some_injective _ hv.symm)
    subst hv'
    constructor
    · exact Int.natCast_nonneg _
    · have hlt : (ws.getD (t / (32 / b)) 0 >>> (t % (32 / b) * b)) % 2 ^ b
          < 2 ^ b := Nat.mod_lt _ (Nat.pos_pow_of_pos b (by norm_num))
      rw [Int.ofNat_eq_natCast]
      exact_mod_cast hlt
  · intro hb32eq t ht
    subst hb32eq
    have hbpw1 : 32 / 32 = 1 := by norm_num
    rw [hget t ht]
    rw [hbpw1] at *
    rw [Nat.div_one, Nat.mod_one]
    exact congrArg some (decodeWord_32 _ (getD_lt_two_pow_32 ws hw _))

/-- Witness for `stateIndices_bit_unpacking` at bits-per-index 1 with 128
zero words and one trailing byte. -/
theorem stateIndices_bit_unpacking_witness :
    ∃ idx : List Int,
      stateIndices (2 * 1 :: (encodeWords (List.replicate 128 0) ++ [5])) =
        .ok (idx, [5]) ∧
      idx.length = 4096 ∧
      (1 ≤ 31 → ∀ t < 4096,
        idx[t]? = some (Int.ofNat
          (((List.replicate 128 0).getD (t / (32 / 1)) 0 >>>
            (t % (32 / 1) * 1)) % 2 ^ 1))) ∧
      (1 ≤ 31 → ∀ t < 4096, ∀ v, idx[t]? = some v →
        0 ≤ v ∧ v < ((2 ^ 1 : Nat) : Int)) ∧
      ((1 : Nat) = 32 → ∀ t < 4096,
        idx[t]? = some (toInt32 ((List.replicate 128 0).getD t 0))) :=
  stateIndices_bit_unpacking 1 (by decide) (by decide) (List.replicate 128 0)
    (fun u hu => by rw [List.eq_of_mem_replicate hu]; norm_num)
    (by simp) [5]

/-- The first decoded palette index of a storage sub-record, when the
record decodes. -/
def firstDecodedIndex : Outcome (List Int × List Nat) → Option Int
  | .ok (l, _) => l[0]?
  | _ => none

/-- C3 counterexample: with bits-per-index 32 (header byte 64) and a
first word of 0x80000000, `stateIndices` decodes the first index as the
negative value -2^31 — the signed reinterpretation of the word — which
is outside the claimed range [0, 2^32). -/
theorem stateIndices_signed_32bit_index :
    firstDecodedIndex
      (stateIndices (64 :: encodeWords (2 ^ 31 :: List.replicate 4095 0))) =
      some (-2147483648) ∧ (-2147483648 : Int) < 0 := by
  refine ⟨?_, by decide⟩
  have hw : ∀ u ∈ (2 ^ 31 :: List.replicate 4095 0 : List Nat), u < 2 ^ 32 := by
    intro u hu
    rcases List.mem_cons.1 hu with h | h
    · subst h
      norm_num
    · rw [List.eq_of_mem_replicate h]
      norm_num
  have hlen : (2 ^ 31 :: List.replicate 4095 0 : List Nat).length =
      (4096 + 32 / 32 - 1) / (32 / 32) := by
    rw [List.length_cons, List.length_replicate]
  have h := stateIndices_encode_spec 32 (by norm_num) (by norm_num) _ hw hlen []
  rw [List.append_nil] at h
  rw [show 2 * 32 = 64 from by norm_num] at h
  rw [h]
  show (unpackWords 32 (32 / 32) (2 ^ 31 :: List.replicate 4095 0) 0)[0]? = _
  have hbound : 0 < (unpackWords 32 (32 / 32)
      (2 ^ 31 :: List.replicate 4095 0) 0).length := by
    rw [unpackWords_length, List.length_cons, List.length_replicate]
    norm_num
  have hg := unpackWords_get 32 (32 / 32) (by norm_num)
    (2 ^ 31 :: List.replicate 4095 0) 0 0 (by norm_num) hbound
  rw [hg]
  norm_num
  rw [decodeWord_32 _ (by norm_num)]
  decide
